import Mathlib

/-!
Shallow embedding of the GSPICE differentiable-expression operator catalog
(src/gspice-utils/src/expression/op.rs), with the Tensor/Expression data
model taken from src/gspice/src/expression/mod.rs.  `f64` values are
idealised as real numbers; a Rust panic (`assert_eq!` on tensor lengths) is
an `Option.none`; the global `GradId::new()` counter is passed in as an
explicit `fresh : ℕ` parameter at every call that may mint an identity.
-/

namespace Gspice

noncomputable section

/-- UnaryOp variant list of op.rs. -/
inductive UnaryOp where
  | LogicNot
  | Neg
  | Sin
  | Cos
  | Tanh
  | Tan
  | Ceil
  | Floor
  | Round
  | Sign
  | Sqrt
  | Sqr
  | Cubic
  | Log
  | Exp
  | Abs
  | Erf

/-- CmpOp variant list of op.rs. -/
inductive CmpOp where
  | Eq
  | Ne
  | Le
  | Ge
  | Lt
  | Gt

/-- BinaryOp variant list of op.rs. -/
inductive BinaryOp where
  | Add
  | Sub
  | Mul
  | Div
  | Pow
  | Min
  | Max
  | LogicAnd
  | LogicOr

/-- CmpMethod of op.rs: `Discret`, `Linear(CmpMethodLinear{epsilon})`,
`Sigmoid(CmpMethodSigmoid{k})`; the wrapped structs are inlined to their
single real field. -/
inductive CmpMethod where
  | Discret
  | Linear (epsilon : ℝ)
  | Sigmoid (k : ℝ)

/-- CmpMethod::differentiable: the trait constant `DIFFERENTIABLE`, which the
discrete method leaves at its default `false` and the linear and sigmoid
methods override to `true`. -/
def CmpMethod.differentiable : CmpMethod → Bool
  | .Discret => false
  | .Linear _ => true
  | .Sigmoid _ => true

mutual

/-- Op of op.rs: operator kind plus the operand expressions recorded as
provenance (the source's `Assgin` spelling is kept). -/
inductive Op where
  | Assgin : Op
  | Powf : Expression → ℝ → Op
  | Cond : Expression → Expression → Expression → Op
  | Unary : Expression → UnaryOp → Op
  | Binary : Expression → Expression → BinaryOp → Op
  | Cmp : Expression → Expression → CmpOp → CmpMethod → Op

/-- Tensor: optional gradient identity, value buffer, recorded Op.  The
gspice-utils `mod.rs` is not under src/; the shape follows the sibling
`src/gspice/src/expression/mod.rs` Tensor `(Option<GradId>, RwLock<Vec<f64>>,
ChangeMarker)` with the op recorded as `Tensor::new`'s third argument and the
change marker (an external collaborator's concern) omitted.  GradId is a ℕ. -/
inductive Tensor where
  | mk : Option ℕ → List ℝ → Op → Tensor

/-- Expression of gspice-utils: `Const(f64)` or `Tensor(Tensor)`, as matched
throughout op.rs. -/
inductive Expression where
  | Const : ℝ → Expression
  | Tensor : Tensor → Expression

end

/-- The gradient-identity slot of a tensor. -/
def Tensor.grad_id : Tensor → Option ℕ
  | .mk g _ _ => g

/-- The value buffer of a tensor. -/
def Tensor.values : Tensor → List ℝ
  | .mk _ v _ => v

/-- The recorded provenance Op of a tensor. -/
def Tensor.op : Tensor → Op
  | .mk _ _ o => o

/-- Tensor::new(grad_id, values, op). -/
def Tensor.new (grad_id : Option ℕ) (values : List ℝ) (op : Op) : Tensor :=
  Tensor.mk grad_id values op

/-- Tensor::with_grad: whether the tensor carries a gradient identity. -/
def Tensor.with_grad (t : Tensor) : Bool :=
  t.grad_id.isSome

/-- The gradient identity of an expression's result: a Const never carries
one, a tensor expression carries its tensor's. -/
def Expression.grad_of : Expression → Option ℕ
  | .Const _ => none
  | .Tensor t => t.grad_id

/-- Truncating three-way zip: the semantics of itertools' `izip!` over three
iterators, which stops at the shortest input. -/
def zipWith3 (f : ℝ → ℝ → ℝ → ℝ) : List ℝ → List ℝ → List ℝ → List ℝ
  | a :: as, b :: bs, c :: cs => f a b c :: zipWith3 f as bs cs
  | _, _, _ => []

/-- Cond::forward: `cond*on_true + (1-cond)*on_false`.  The source's
`assert_logic!` range check is `debug_assert!` only and does not affect the
returned value. -/
def Cond.forward (cond on_true on_false : ℝ) : ℝ :=
  cond * on_true + (1 - cond) * on_false

/-- Cond::iter_tensor_x_x: map the forward over the cond tensor. -/
def Cond.iter_tensor_x_x (cond_tensor : Tensor) (on_true_x on_false_x : ℝ) : List ℝ :=
  cond_tensor.values.map fun cond_x => Cond.forward cond_x on_true_x on_false_x

/-- Cond::iter_tensor_x_tensor: `izip!` over cond and on_false tensors. -/
def Cond.iter_tensor_x_tensor (cond_tensor : Tensor) (on_true_x : ℝ)
    (on_false_tensor : Tensor) : List ℝ :=
  List.zipWith (fun cond_x on_false_x => Cond.forward cond_x on_true_x on_false_x)
    cond_tensor.values on_false_tensor.values

/-- Cond::iter_tensor_tensor_x: `izip!` over cond and on_true tensors. -/
def Cond.iter_tensor_tensor_x (cond_tensor on_true_tensor : Tensor)
    (on_false_x : ℝ) : List ℝ :=
  List.zipWith (fun cond_x on_true_x => Cond.forward cond_x on_true_x on_false_x)
    cond_tensor.values on_true_tensor.values

/-- Cond::iter_tensor_tensor_tensor: `izip!` over all three tensors (no
length check in the source; `izip!` truncates to the shortest). -/
def Cond.iter_tensor_tensor_tensor (cond_tensor on_true_tensor on_false_tensor : Tensor) :
    List ℝ :=
  zipWith3 Cond.forward cond_tensor.values on_true_tensor.values on_false_tensor.values

/-- Expression::cond, all nine operand-shape arms of op.rs lines 186-278.
`f64::is_zero` is exact comparison with zero. -/
def Expression.cond (self on_true on_false : Expression) (fresh : ℕ) : Expression :=
  match self, on_true, on_false with
  | .Const cond_x, .Const on_true_x, .Const on_false_x =>
      .Const (Cond.forward cond_x on_true_x on_false_x)
  | .Const cond_x, .Const on_true_x, .Tensor on_false_tensor =>
      if cond_x = 0 then .Tensor on_false_tensor else .Const on_true_x
  | .Const cond_x, .Tensor on_true_tensor, .Const on_false_x =>
      if cond_x = 0 then .Const on_false_x else .Tensor on_true_tensor
  | .Const cond_x, .Tensor on_true_tensor, .Tensor on_false_tensor =>
      if cond_x = 0 then .Tensor on_false_tensor else .Tensor on_true_tensor
  | .Tensor cond_tensor, .Const on_true_x, .Const on_false_x =>
      .Tensor (Tensor.new (if cond_tensor.with_grad then some fresh else none)
        (Cond.iter_tensor_x_x cond_tensor on_true_x on_false_x)
        (Op.Cond (.Tensor cond_tensor) (.Const on_true_x) (.Const on_false_x)))
  | .Tensor cond_tensor, .Const on_true_x, .Tensor on_false_tensor =>
      .Tensor (Tensor.new
        (if cond_tensor.with_grad || on_false_tensor.with_grad then some fresh else none)
        (Cond.iter_tensor_x_tensor cond_tensor on_true_x on_false_tensor)
        (Op.Cond (.Tensor cond_tensor) (.Const on_true_x) (.Tensor on_false_tensor)))
  | .Tensor cond_tensor, .Tensor on_true_tensor, .Const on_false_x =>
      .Tensor (Tensor.new
        (if cond_tensor.with_grad || on_true_tensor.with_grad then some fresh else none)
        (Cond.iter_tensor_tensor_x cond_tensor on_true_tensor on_false_x)
        (Op.Cond (.Tensor cond_tensor) (.Tensor on_true_tensor) (.Const on_false_x)))
  | .Tensor cond_tensor, .Tensor on_true_tensor, .Tensor on_false_tensor =>
      .Tensor (Tensor.new
        (if cond_tensor.with_grad || on_true_tensor.with_grad || on_false_tensor.with_grad
          then some fresh else none)
        (Cond.iter_tensor_tensor_tensor cond_tensor on_true_tensor on_false_tensor)
        (Op.Cond (.Tensor cond_tensor) (.Tensor on_true_tensor) (.Tensor on_false_tensor)))

/-- Ceil::forward: `x.ceil()`. -/
def Ceil.forward (x : ℝ) : ℝ := (⌈x⌉ : ℤ)

/-- Ceil::backward: the source only logs "BackwardNotSupported Ceil" and
leaves `sum_grad` untouched. -/
def Ceil.backward (_x _res _grad sum_grad : ℝ) : ℝ := sum_grad

/-- Floor::forward: `x.floor()`. -/
def Floor.forward (x : ℝ) : ℝ := (⌊x⌋ : ℤ)

/-- Floor::backward: the source only logs "BackwardNotSupported Floor" and
leaves `sum_grad` untouched. -/
def Floor.backward (_x _res _grad sum_grad : ℝ) : ℝ := sum_grad

/-- Round::forward: `x.round()`, which for f64 rounds half away from zero. -/
def Round.forward (x : ℝ) : ℝ :=
  if x < 0 then -((⌊-x + 1 / 2⌋ : ℤ) : ℝ) else ((⌊x + 1 / 2⌋ : ℤ) : ℝ)

/-- Round::backward: the source only logs "BackwardNotSupported Round" and
leaves `sum_grad` untouched. -/
def Round.backward (_x _res _grad sum_grad : ℝ) : ℝ := sum_grad

/-- Sign::forward: `x.signum()` (for real x: -1 when negative, else 1). -/
def Sign.forward (x : ℝ) : ℝ := if x < 0 then -1 else 1

/-- Sign::backward: the source only logs "BackwardNotSupported Sign" and
leaves `sum_grad` untouched (the epsilon-window variant is commented out). -/
def Sign.backward (_x _res _grad sum_grad : ℝ) : ℝ := sum_grad

/-- LogicNot::forward: `1.0 - x` (`assert_logic!` is debug-only). -/
def LogicNot.forward (x : ℝ) : ℝ := 1 - x

/-- LogicNot::backward exactly as the source writes it: it reuses the
erf-derivative formula `(2/sqrt(pi)) * exp(-x*x)` (its comment even reads
"d/dx erf(x) = 2/sqrt(pi) * e^(-x^2)") rather than the constant -1 that
the forward `1 - x` implies. -/
def LogicNot.backward (x _res grad sum_grad : ℝ) : ℝ :=
  sum_grad + grad * ((2 / Real.sqrt Real.pi) * Real.exp (-x * x))

/-- Tensor::iter_unary_op: map the forward over the buffer. -/
def Tensor.iter_unary_op (t : Tensor) (forward : ℝ → ℝ) : List ℝ :=
  t.values.map forward

/-- Tensor::unary_op (op.rs lines 606-616): fresh identity iff the operand
tensor has one. -/
def Tensor.unary_op (t : Tensor) (forward : ℝ → ℝ) (op : Op) (fresh : ℕ) : Tensor :=
  Tensor.new (if t.with_grad then some fresh else none) (t.iter_unary_op forward) op

/-- Min::forward_lhs_rhs: `lhs.min(rhs)`. -/
def Min.forward_lhs_rhs (lhs rhs : ℝ) : ℝ := min lhs rhs

/-- Min::forward_rhs_lhs: operand-swapped signature, same value. -/
def Min.forward_rhs_lhs (rhs lhs : ℝ) : ℝ := min lhs rhs

/-- Min::backward_lhs: `match OrderedFloat(lhs).cmp(&OrderedFloat(rhs))`,
Less adds the full grad, Equal adds grad/2, Greater adds nothing. -/
def Min.backward_lhs (lhs rhs _res grad lhs_sum_grad : ℝ) : ℝ :=
  if lhs < rhs then lhs_sum_grad + grad
  else if lhs = rhs then lhs_sum_grad + grad / 2
  else lhs_sum_grad

/-- Min::backward_rhs: `match OrderedFloat(rhs).cmp(&OrderedFloat(lhs))`. -/
def Min.backward_rhs (lhs rhs _res grad rhs_sum_grad : ℝ) : ℝ :=
  if rhs < lhs then rhs_sum_grad + grad
  else if rhs = lhs then rhs_sum_grad + grad / 2
  else rhs_sum_grad

/-- Max::forward_lhs_rhs: `lhs.max(rhs)`. -/
def Max.forward_lhs_rhs (lhs rhs : ℝ) : ℝ := max lhs rhs

/-- Max::forward_rhs_lhs: operand-swapped signature, same value. -/
def Max.forward_rhs_lhs (rhs lhs : ℝ) : ℝ := max lhs rhs

/-- Max::backward_lhs: Less adds nothing, Equal adds grad/2, Greater adds
the full grad. -/
def Max.backward_lhs (lhs rhs _res grad lhs_sum_grad : ℝ) : ℝ :=
  if lhs < rhs then lhs_sum_grad
  else if lhs = rhs then lhs_sum_grad + grad / 2
  else lhs_sum_grad + grad

/-- Max::backward_rhs: `match OrderedFloat(rhs).cmp(&OrderedFloat(lhs))`,
Less adds nothing, Equal adds grad/2, Greater adds the full grad. -/
def Max.backward_rhs (lhs rhs _res grad rhs_sum_grad : ℝ) : ℝ :=
  if rhs < lhs then rhs_sum_grad
  else if rhs = lhs then rhs_sum_grad + grad / 2
  else rhs_sum_grad + grad

/-- Tensor::iter_binary_op (op.rs lines 1811-1820): `assert_eq!` on the two
lengths is a fatal panic with no partial result, modelled as `none`. -/
def Tensor.iter_binary_op (t rhs : Tensor) (forward : ℝ → ℝ → ℝ) : Option (List ℝ) :=
  if rhs.values.length = t.values.length then
    some (List.zipWith forward t.values rhs.values)
  else none

/-- Tensor::broadcast_iter_binary_op: scalar rhs broadcast over the buffer. -/
def Tensor.broadcast_iter_binary_op (t : Tensor) (rhs : ℝ) (forward : ℝ → ℝ → ℝ) :
    List ℝ :=
  t.values.map fun v => forward v rhs

/-- Tensor::binary_op (op.rs lines 1835-1845): fresh identity iff either
tensor operand has one; propagates the length-mismatch panic. -/
def Tensor.binary_op (t rhs : Tensor) (forward : ℝ → ℝ → ℝ) (op : Op) (fresh : ℕ) :
    Option Tensor :=
  (t.iter_binary_op rhs forward).map fun vals =>
    Tensor.new (if t.with_grad || rhs.with_grad then some fresh else none) vals op

/-- Tensor::broadcast_binary_op: fresh identity iff the tensor operand has
one (the scalar operand never contributes). -/
def Tensor.broadcast_binary_op (t : Tensor) (rhs : ℝ) (forward : ℝ → ℝ → ℝ)
    (op : Op) (fresh : ℕ) : Tensor :=
  Tensor.new (if t.with_grad then some fresh else none)
    (t.broadcast_iter_binary_op rhs forward) op

/-- CmpMethodDiscret::eq_forward: exact total-order equality test. -/
def CmpMethodDiscret.eq_forward (lhs rhs : ℝ) : ℝ := if lhs = rhs then 1 else 0

/-- CmpMethodDiscret::ne_forward. -/
def CmpMethodDiscret.ne_forward (lhs rhs : ℝ) : ℝ := if lhs ≠ rhs then 1 else 0

/-- CmpMethodDiscret::le_forward. -/
def CmpMethodDiscret.le_forward (lhs rhs : ℝ) : ℝ := if lhs ≤ rhs then 1 else 0

/-- CmpMethodDiscret::ge_forward. -/
def CmpMethodDiscret.ge_forward (lhs rhs : ℝ) : ℝ := if lhs ≥ rhs then 1 else 0

/-- CmpMethodDiscret::lt_forward. -/
def CmpMethodDiscret.lt_forward (lhs rhs : ℝ) : ℝ := if lhs < rhs then 1 else 0

/-- CmpMethodDiscret::gt_forward. -/
def CmpMethodDiscret.gt_forward (lhs rhs : ℝ) : ℝ := if lhs > rhs then 1 else 0

/-- CmpMethodLinear::eq_forward: `1 - |a-b|/eps` inside the band, else 0. -/
def CmpMethodLinear.eq_forward (epsilon lhs rhs : ℝ) : ℝ :=
  if |lhs - rhs| < epsilon then 1 - |lhs - rhs| / epsilon else 0

/-- CmpMethodLinear::ne_forward: `|a-b|/eps` inside the band, else 1. -/
def CmpMethodLinear.ne_forward (epsilon lhs rhs : ℝ) : ℝ :=
  if |lhs - rhs| < epsilon then |lhs - rhs| / epsilon else 1

/-- CmpMethodLinear::le_forward: 0 above the band, 1 below, linear ramp
`1/2 - diff/(2 eps)` inside. -/
def CmpMethodLinear.le_forward (epsilon lhs rhs : ℝ) : ℝ :=
  if epsilon < lhs - rhs then 0
  else if lhs - rhs < -epsilon then 1
  else 1 / 2 - (lhs - rhs) / (2 * epsilon)

/-- CmpMethodLinear::le_backward_lhs: constant band slope, zero outside. -/
def CmpMethodLinear.le_backward_lhs (epsilon lhs rhs _res grad lhs_sum_grad : ℝ) : ℝ :=
  if |lhs - rhs| ≤ epsilon then lhs_sum_grad - grad / (2 * epsilon) else lhs_sum_grad

/-- CmpMethodLinear::le_backward_rhs. -/
def CmpMethodLinear.le_backward_rhs (epsilon lhs rhs _res grad rhs_sum_grad : ℝ) : ℝ :=
  if |lhs - rhs| ≤ epsilon then rhs_sum_grad + grad / (2 * epsilon) else rhs_sum_grad

/-- CmpMethodLinear::ge_forward: operand-swapped le. -/
def CmpMethodLinear.ge_forward (epsilon lhs rhs : ℝ) : ℝ :=
  CmpMethodLinear.le_forward epsilon rhs lhs

/-- CmpMethodLinear::ge_backward_lhs delegates to le_backward_rhs. -/
def CmpMethodLinear.ge_backward_lhs (epsilon lhs rhs res grad lhs_sum_grad : ℝ) : ℝ :=
  CmpMethodLinear.le_backward_rhs epsilon lhs rhs res grad lhs_sum_grad

/-- CmpMethodLinear::ge_backward_rhs delegates to le_backward_lhs. -/
def CmpMethodLinear.ge_backward_rhs (epsilon lhs rhs res grad rhs_sum_grad : ℝ) : ℝ :=
  CmpMethodLinear.le_backward_lhs epsilon lhs rhs res grad rhs_sum_grad

/-- CmpMethodLinear::lt_forward delegates to le_forward. -/
def CmpMethodLinear.lt_forward (epsilon lhs rhs : ℝ) : ℝ :=
  CmpMethodLinear.le_forward epsilon lhs rhs

/-- CmpMethodLinear::lt_backward_lhs delegates to le_backward_lhs. -/
def CmpMethodLinear.lt_backward_lhs (epsilon lhs rhs res grad lhs_sum_grad : ℝ) : ℝ :=
  CmpMethodLinear.le_backward_lhs epsilon lhs rhs res grad lhs_sum_grad

/-- CmpMethodLinear::lt_backward_rhs delegates to le_backward_rhs. -/
def CmpMethodLinear.lt_backward_rhs (epsilon lhs rhs res grad rhs_sum_grad : ℝ) : ℝ :=
  CmpMethodLinear.le_backward_rhs epsilon lhs rhs res grad rhs_sum_grad

/-- CmpMethodLinear::gt_forward delegates to ge_forward. -/
def CmpMethodLinear.gt_forward (epsilon lhs rhs : ℝ) : ℝ :=
  CmpMethodLinear.ge_forward epsilon lhs rhs

/-- CmpMethodLinear::gt_backward_lhs delegates to ge_backward_lhs. -/
def CmpMethodLinear.gt_backward_lhs (epsilon lhs rhs res grad lhs_sum_grad : ℝ) : ℝ :=
  CmpMethodLinear.ge_backward_lhs epsilon lhs rhs res grad lhs_sum_grad

/-- CmpMethodLinear::gt_backward_rhs delegates to ge_backward_rhs. -/
def CmpMethodLinear.gt_backward_rhs (epsilon lhs rhs res grad rhs_sum_grad : ℝ) : ℝ :=
  CmpMethodLinear.ge_backward_rhs epsilon lhs rhs res grad rhs_sum_grad

/-- CmpMethodSigmoid::eq_forward: `exp(-k*diff*diff)`. -/
def CmpMethodSigmoid.eq_forward (k lhs rhs : ℝ) : ℝ :=
  Real.exp (-k * (lhs - rhs) * (lhs - rhs))

/-- CmpMethodSigmoid::ne_forward: `1 - eq_forward`. -/
def CmpMethodSigmoid.ne_forward (k lhs rhs : ℝ) : ℝ :=
  1 - CmpMethodSigmoid.eq_forward k lhs rhs

/-- CmpMethodSigmoid::le_forward: logistic `1/(1 + exp(k*(lhs-rhs)))`. -/
def CmpMethodSigmoid.le_forward (k lhs rhs : ℝ) : ℝ :=
  1 / (1 + Real.exp (k * (lhs - rhs)))

/-- CmpMethodSigmoid::le_backward_lhs: subtracts `grad*k*sigma*(1-sigma)`. -/
def CmpMethodSigmoid.le_backward_lhs (k lhs rhs _res grad lhs_sum_grad : ℝ) : ℝ :=
  let sigma := 1 / (1 + Real.exp (k * (lhs - rhs)))
  lhs_sum_grad - grad * k * sigma * (1 - sigma)

/-- CmpMethodSigmoid::le_backward_rhs: adds `grad*k*sigma*(1-sigma)`. -/
def CmpMethodSigmoid.le_backward_rhs (k lhs rhs _res grad rhs_sum_grad : ℝ) : ℝ :=
  let sigma := 1 / (1 + Real.exp (k * (lhs - rhs)))
  rhs_sum_grad + grad * k * sigma * (1 - sigma)

/-- CmpMethodSigmoid::ge_forward: operand-swapped le. -/
def CmpMethodSigmoid.ge_forward (k lhs rhs : ℝ) : ℝ :=
  CmpMethodSigmoid.le_forward k rhs lhs

/-- CmpMethodSigmoid::ge_backward_lhs delegates to le_backward_rhs. -/
def CmpMethodSigmoid.ge_backward_lhs (k lhs rhs res grad lhs_sum_grad : ℝ) : ℝ :=
  CmpMethodSigmoid.le_backward_rhs k lhs rhs res grad lhs_sum_grad

/-- CmpMethodSigmoid::ge_backward_rhs delegates to le_backward_lhs. -/
def CmpMethodSigmoid.ge_backward_rhs (k lhs rhs res grad rhs_sum_grad : ℝ) : ℝ :=
  CmpMethodSigmoid.le_backward_lhs k lhs rhs res grad rhs_sum_grad

/-- CmpMethodSigmoid::lt_forward delegates to le_forward. -/
def CmpMethodSigmoid.lt_forward (k lhs rhs : ℝ) : ℝ :=
  CmpMethodSigmoid.le_forward k lhs rhs

/-- CmpMethodSigmoid::lt_backward_lhs delegates to le_backward_lhs. -/
def CmpMethodSigmoid.lt_backward_lhs (k lhs rhs res grad lhs_sum_grad : ℝ) : ℝ :=
  CmpMethodSigmoid.le_backward_lhs k lhs rhs res grad lhs_sum_grad

/-- CmpMethodSigmoid::lt_backward_rhs delegates to le_backward_rhs. -/
def CmpMethodSigmoid.lt_backward_rhs (k lhs rhs res grad rhs_sum_grad : ℝ) : ℝ :=
  CmpMethodSigmoid.le_backward_rhs k lhs rhs res grad rhs_sum_grad

/-- CmpMethodSigmoid::gt_forward delegates to ge_forward. -/
def CmpMethodSigmoid.gt_forward (k lhs rhs : ℝ) : ℝ :=
  CmpMethodSigmoid.ge_forward k lhs rhs

/-- CmpMethodSigmoid::gt_backward_lhs delegates to ge_backward_lhs. -/
def CmpMethodSigmoid.gt_backward_lhs (k lhs rhs res grad lhs_sum_grad : ℝ) : ℝ :=
  CmpMethodSigmoid.ge_backward_lhs k lhs rhs res grad lhs_sum_grad

/-- CmpMethodSigmoid::gt_backward_rhs delegates to ge_backward_rhs. -/
def CmpMethodSigmoid.gt_backward_rhs (k lhs rhs res grad rhs_sum_grad : ℝ) : ℝ :=
  CmpMethodSigmoid.ge_backward_rhs k lhs rhs res grad rhs_sum_grad

/-- Modelled from the spec: the per-relation `impl CmpOpT for Le` is not
under src/ (only its callers in op.rs are); per the spec's "six relations x
three smoothing methods, selected per call", the relation's forward picks
the selected method's `le_forward`. -/
def CmpMethod.le_forward : CmpMethod → ℝ → ℝ → ℝ
  | .Discret => CmpMethodDiscret.le_forward
  | .Linear e => CmpMethodLinear.le_forward e
  | .Sigmoid k => CmpMethodSigmoid.le_forward k

/-- CmpOpT trait view used by `Expression::cmp_op`: the relation's Op tag
and its method-dispatched scalar forward. -/
structure CmpOpT where
  op : CmpOp
  forward : CmpMethod → ℝ → ℝ → ℝ

/-- The `Le` relation as a CmpOpT instance. -/
def LeT : CmpOpT :=
  ⟨CmpOp.Le, CmpMethod.le_forward⟩

/-- CmpOpT::forward_iter: elementwise forward over `izip!` of both buffers
(truncating, no length check). -/
def CmpOpT.forward_iter (T : CmpOpT) (cmp_method : CmpMethod) (lhs rhs : List ℝ) :
    List ℝ :=
  List.zipWith (T.forward cmp_method) lhs rhs

/-- CmpOpT::forward_iter_fix_lhs: scalar lhs against the rhs buffer. -/
def CmpOpT.forward_iter_fix_lhs (T : CmpOpT) (cmp_method : CmpMethod) (lhs : ℝ)
    (rhs_iter : List ℝ) : List ℝ :=
  rhs_iter.map fun r => T.forward cmp_method lhs r

/-- CmpOpT::forward_iter_fix_rhs: scalar rhs against the lhs buffer. -/
def CmpOpT.forward_iter_fix_rhs (T : CmpOpT) (cmp_method : CmpMethod) (rhs : ℝ)
    (lhs_iter : List ℝ) : List ℝ :=
  lhs_iter.map fun l => T.forward cmp_method l rhs

/-- Expression::cmp_op (op.rs lines 1420-1495): Const/Const is always
evaluated with the Discrete method; each tensor arm honors the requested
method with a fresh identity only when it is differentiable AND a tensor
operand tracks gradients, and otherwise silently downgrades to Discrete
with no identity. -/
def Expression.cmp_op (T : CmpOpT) (self rhs : Expression) (cmp_method : CmpMethod)
    (fresh : ℕ) : Expression :=
  match self, rhs with
  | .Const lhs_x, .Const rhs_x => .Const (T.forward CmpMethod.Discret lhs_x rhs_x)
  | .Const lhs_x, .Tensor rhs_tensor =>
      let p : Option ℕ × CmpMethod :=
        if cmp_method.differentiable && rhs_tensor.with_grad then (some fresh, cmp_method)
        else (none, CmpMethod.Discret)
      .Tensor (Tensor.new p.1 (T.forward_iter_fix_lhs p.2 lhs_x rhs_tensor.values)
        (Op.Cmp (.Const lhs_x) (.Tensor rhs_tensor) T.op p.2))
  | .Tensor lhs_tensor, .Const rhs_x =>
      let p : Option ℕ × CmpMethod :=
        if cmp_method.differentiable && lhs_tensor.with_grad then (some fresh, cmp_method)
        else (none, CmpMethod.Discret)
      .Tensor (Tensor.new p.1 (T.forward_iter_fix_rhs p.2 rhs_x lhs_tensor.values)
        (Op.Cmp (.Tensor lhs_tensor) (.Const rhs_x) T.op p.2))
  | .Tensor lhs_tensor, .Tensor rhs_tensor =>
      let p : Option ℕ × CmpMethod :=
        if cmp_method.differentiable && (lhs_tensor.with_grad || rhs_tensor.with_grad)
        then (some fresh, cmp_method)
        else (none, CmpMethod.Discret)
      .Tensor (Tensor.new p.1 (T.forward_iter p.2 lhs_tensor.values rhs_tensor.values)
        (Op.Cmp (.Tensor lhs_tensor) (.Tensor rhs_tensor) T.op p.2))

/-- Length of the truncating three-way zip: the minimum of the three input
lengths. -/
theorem zipWith3_length (f : ℝ → ℝ → ℝ → ℝ) (as bs cs : List ℝ) :
    (zipWith3 f as bs cs).length = min (min as.length bs.length) cs.length := by
  induction as generalizing bs cs with
  | nil => simp [zipWith3]
  | cons a as ih =>
    cases bs with
    | nil => simp [zipWith3]
    | cons b bs =>
      cases cs with
      | nil => simp [zipWith3]
      | cons c cs =>
        simp only [zipWith3, List.length_cons, ih]
        omega

/-- Sum of the linear ramp at opposite offsets is exactly one inside and
outside the band. -/
theorem linear_le_swap_sum (e a b : ℝ) (he : 0 < e) :
    CmpMethodLinear.le_forward e a b + CmpMethodLinear.le_forward e b a = 1 := by
  unfold CmpMethodLinear.le_forward
  by_cases h1 : e < a - b
  · rw [if_pos h1, if_neg (by linarith), if_pos (by linarith)]
    ring
  · by_cases h2 : a - b < -e
    · rw [if_neg h1, if_pos h2, if_pos (by linarith)]
      ring
    · have hne : e ≠ 0 := ne_of_gt he
      rw [if_neg h1, if_neg h2, if_neg (by linarith), if_neg (by linarith)]
      field_simp
      ring

/-- Sum of the logistic at opposite arguments is exactly one. -/
theorem sigmoid_swap_sum (x : ℝ) :
    1 / (1 + Real.exp x) + 1 / (1 + Real.exp (-x)) = 1 := by
  have h1 : (0 : ℝ) < 1 + Real.exp x := by positivity
  have h3 : Real.exp x ≠ 0 := (Real.exp_pos x).ne'
  have h4 : (1 : ℝ) + Real.exp x ≠ 0 := h1.ne'
  rw [Real.exp_neg]
  field_simp
  ring

/-- C1 counterexample: `Cond::iter_tensor_tensor_tensor` applied to tensor
operands of unequal lengths (2, 2 and 1) does not fail — it silently
truncates through `izip!` and produces the partial result `[7]`. -/
theorem c1_counterexample :
    Cond.iter_tensor_tensor_tensor (Tensor.new none [0, 1] Op.Assgin)
        (Tensor.new none [5, 6] Op.Assgin) (Tensor.new none [7] Op.Assgin) = [7] ∧
      (Tensor.new none [0, 1] Op.Assgin).values.length = 2 ∧
      (Tensor.new none [7] Op.Assgin).values.length = 1 := by
  refine ⟨?_, rfl, rfl⟩
  show zipWith3 Cond.forward [0, 1] [5, 6] [7] = [7]
  simp [zipWith3, Cond.forward]

/-- C1 (amended): a binary operator on two tensors of unequal lengths is a
fatal length-mismatch panic with no partial result, but the conditional and
comparison tensor paths perform no length check — they zip down to the
shortest operand and return that truncated result. -/
theorem c1_shape_mismatch (t rhs ct tt ft : Tensor) (f : ℝ → ℝ → ℝ) (op : Op)
    (fresh : ℕ) (T : CmpOpT) (m : CmpMethod) :
    (t.iter_binary_op rhs f = none ↔ rhs.values.length ≠ t.values.length) ∧
      (t.binary_op rhs f op fresh = none ↔ rhs.values.length ≠ t.values.length) ∧
      (Cond.iter_tensor_tensor_tensor ct tt ft).length =
        min (min ct.values.length tt.values.length) ft.values.length ∧
      (T.forward_iter m ct.values tt.values).length =
        min ct.values.length tt.values.length := by
  refine ⟨?_, ?_, ?_, ?_⟩
  · unfold Tensor.iter_binary_op
    split <;> simp_all
  · unfold Tensor.binary_op Tensor.iter_binary_op
    split <;> simp_all
  · exact zipWith3_length Cond.forward ct.values tt.values ft.values
  · simp [CmpOpT.forward_iter]

/-- C4 counterexample: with a Const condition 1/2 (nonzero) and both
branches Const, `Expression::cond` returns the blended constant 1/2, not
the on_true branch `Const 1`. -/
theorem c4_counterexample :
    Expression.cond (.Const (1 / 2)) (.Const 1) (.Const 0) 0 = .Const (1 / 2) ∧
      (1 / 2 : ℝ) ≠ 1 := by
  constructor
  · show Expression.Const (Cond.forward (1 / 2) 1 0) = _
    norm_num [Cond.forward]
  · norm_num

/-- C4 (amended): when the condition is a Const and at least one branch is a
Tensor, `Expression::cond` selects the branch expression by an exact
zero/nonzero test without building a graph node; when both branches are
Const it instead returns the blended constant `c*t + (1-c)*f`, which equals
the on_false value at c = 0 but equals the on_true branch only at c = 1. -/
theorem c4_cond_const_shortcircuit (c t f : ℝ) (tt ft : Tensor) (fresh : ℕ) :
    Expression.cond (.Const c) (.Const t) (.Const f) fresh =
        .Const (c * t + (1 - c) * f) ∧
      (c = 0 →
        Expression.cond (.Const c) (.Const t) (.Tensor ft) fresh = .Tensor ft ∧
        Expression.cond (.Const c) (.Tensor tt) (.Const f) fresh = .Const f ∧
        Expression.cond (.Const c) (.Tensor tt) (.Tensor ft) fresh = .Tensor ft) ∧
      (c ≠ 0 →
        Expression.cond (.Const c) (.Const t) (.Tensor ft) fresh = .Const t ∧
        Expression.cond (.Const c) (.Tensor tt) (.Const f) fresh = .Tensor tt ∧
        Expression.cond (.Const c) (.Tensor tt) (.Tensor ft) fresh = .Tensor tt) := by
  refine ⟨rfl, fun h => ?_, fun h => ?_⟩
  · subst h
    refine ⟨?_, ?_, ?_⟩ <;> simp [Expression.cond]
  · refine ⟨?_, ?_, ?_⟩ <;> simp [Expression.cond, h]

/-- C5: min routes the full upstream gradient to the strictly smaller
operand and nothing to the other, max routes it to the strictly larger
operand, and on an exact tie both backward rules of both operators add
exactly half the upstream gradient to each accumulator. -/
theorem c5_min_max_backward (a b res grad acc : ℝ) :
    (a < b →
      Min.backward_lhs a b res grad acc = acc + grad ∧
      Min.backward_rhs a b res grad acc = acc ∧
      Max.backward_lhs a b res grad acc = acc ∧
      Max.backward_rhs a b res grad acc = acc + grad) ∧
    (b < a →
      Min.backward_lhs a b res grad acc = acc ∧
      Min.backward_rhs a b res grad acc = acc + grad ∧
      Max.backward_lhs a b res grad acc = acc + grad ∧
      Max.backward_rhs a b res grad acc = acc) ∧
    (a = b →
      Min.backward_lhs a b res grad acc = acc + grad / 2 ∧
      Min.backward_rhs a b res grad acc = acc + grad / 2 ∧
      Max.backward_lhs a b res grad acc = acc + grad / 2 ∧
      Max.backward_rhs a b res grad acc = acc + grad / 2) := by
  unfold Min.backward_lhs Min.backward_rhs Max.backward_lhs Max.backward_rhs
  refine ⟨fun h => ?_, fun h => ?_, fun h => ?_⟩
  · rw [if_pos h, if_neg (asymm h), if_neg h.ne', if_pos h, if_neg (asymm h), if_neg h.ne']
    exact ⟨rfl, rfl, rfl, rfl⟩
  · rw [if_neg (asymm h), if_neg (ne_of_gt h), if_pos h, if_neg (asymm h),
      if_neg (ne_of_gt h), if_pos h]
    exact ⟨rfl, rfl, rfl, rfl⟩
  · subst h
    simp

/-- C6: the backward rules of floor, ceil, round and sign return the
accumulator exactly unchanged for every input, result, upstream gradient
and starting accumulator (the source body is a recoverable `log::error!`
diagnostic only). -/
theorem c6_nondiff_backward_untouched (x res grad acc : ℝ) :
    Ceil.backward x res grad acc = acc ∧
      Floor.backward x res grad acc = acc ∧
      Round.backward x res grad acc = acc ∧
      Sign.backward x res grad acc = acc :=
  ⟨rfl, rfl, rfl, rfl⟩

/-- C7: logic_not's forward is `1 - x`, but its backward at the failing
input x = 0, grad = 1, acc = 0 adds the erf-derivative value `2/sqrt(pi)`
(about 1.128) instead of `grad * (-1) = -1` — the copy-pasted erf gradient,
not the derivative of `1 - x`. -/
theorem c7_logic_not_backward_bug :
    LogicNot.forward 0 = 1 ∧
      LogicNot.backward 0 1 1 0 = 2 / Real.sqrt Real.pi ∧
      (2 / Real.sqrt Real.pi : ℝ) ≠ 1 * (-1) := by
  refine ⟨by norm_num [LogicNot.forward], ?_, ?_⟩
  · unfold LogicNot.backward
    norm_num [Real.exp_zero]
  · have h : (0 : ℝ) < 2 / Real.sqrt Real.pi := by
      have := Real.sqrt_pos.mpr Real.pi_pos
      positivity
    intro hEq
    rw [hEq] at h
    norm_num at h

/-- C2 counterexample: a comparison call on a gradient-tracking tensor and
a plain tensor with the Discrete method produces a derived tensor result
that carries no gradient identity, although a tensor-valued operand
carries one. -/
theorem c2_counterexample :
    (Expression.cmp_op LeT (.Tensor (Tensor.new (some 0) [1] Op.Assgin))
          (.Tensor (Tensor.new none [2] Op.Assgin)) CmpMethod.Discret 5).grad_of
        = none ∧
      (Tensor.new (some 0) [1] Op.Assgin).with_grad = true := by
  exact ⟨rfl, rfl⟩

/-- C2 (amended): the unary, binary (broadcast included) and conditional
dispatchers give the derived result a gradient identity exactly when a
tensor operand carries one, a Const or scalar operand never induces one,
and any assigned identity is the freshly minted `fresh`, never one reused
from an operand; a comparison result additionally requires the smoothing
method to be differentiable. -/
theorem c2_grad_identity (t rhs lt' rt ct tt ft : Tensor) (uf : ℝ → ℝ)
    (bf : ℝ → ℝ → ℝ) (c vt vf : ℝ) (op : Op) (fresh : ℕ) (T : CmpOpT)
    (m : CmpMethod) :
    ((t.unary_op uf op fresh).grad_id.isSome = t.with_grad ∧
      ∀ i, (t.unary_op uf op fresh).grad_id = some i → i = fresh) ∧
    ((t.broadcast_binary_op c bf op fresh).grad_id.isSome = t.with_grad ∧
      ∀ i, (t.broadcast_binary_op c bf op fresh).grad_id = some i → i = fresh) ∧
    (∀ res, t.binary_op rhs bf op fresh = some res →
      res.grad_id.isSome = (t.with_grad || rhs.with_grad) ∧
      ∀ i, res.grad_id = some i → i = fresh) ∧
    ((Expression.cond (.Tensor ct) (.Const vt) (.Const vf) fresh).grad_of.isSome
        = ct.with_grad ∧
      ∀ i, (Expression.cond (.Tensor ct) (.Const vt) (.Const vf) fresh).grad_of
          = some i → i = fresh) ∧
    ((Expression.cond (.Tensor ct) (.Const vt) (.Tensor ft) fresh).grad_of.isSome
        = (ct.with_grad || ft.with_grad) ∧
      ∀ i, (Expression.cond (.Tensor ct) (.Const vt) (.Tensor ft) fresh).grad_of
          = some i → i = fresh) ∧
    ((Expression.cond (.Tensor ct) (.Tensor tt) (.Const vf) fresh).grad_of.isSome
        = (ct.with_grad || tt.with_grad) ∧
      ∀ i, (Expression.cond (.Tensor ct) (.Tensor tt) (.Const vf) fresh).grad_of
          = some i → i = fresh) ∧
    ((Expression.cond (.Tensor ct) (.Tensor tt) (.Tensor ft) fresh).grad_of.isSome
        = (ct.with_grad || tt.with_grad || ft.with_grad) ∧
      ∀ i, (Expression.cond (.Tensor ct) (.Tensor tt) (.Tensor ft) fresh).grad_of
          = some i → i = fresh) ∧
    ((Expression.cmp_op T (.Tensor lt') (.Tensor rt) m fresh).grad_of.isSome
        = (m.differentiable && (lt'.with_grad || rt.with_grad)) ∧
      ∀ i, (Expression.cmp_op T (.Tensor lt') (.Tensor rt) m fresh).grad_of = some i →
        i = fresh) := by
  refine ⟨?_, ?_, ?_, ?_, ?_, ?_, ?_, ?_⟩
  · cases h : t.with_grad <;>
      simp [Tensor.unary_op, Tensor.new, Tensor.grad_id, h]
  · cases h : t.with_grad <;>
      simp [Tensor.broadcast_binary_op, Tensor.new, Tensor.grad_id, h]
  · intro res hres
    unfold Tensor.binary_op at hres
    cases hv : t.iter_binary_op rhs bf with
    | none => rw [hv] at hres; simp at hres
    | some vals =>
      rw [hv] at hres
      simp only [Option.map_some'] at hres
      cases hres
      cases h : (t.with_grad || rhs.with_grad) <;>
        simp [Tensor.new, Tensor.grad_id, h]
  · cases h : ct.with_grad <;>
      simp [Expression.cond, Expression.grad_of, Tensor.new, Tensor.grad_id, h]
  · cases h : (ct.with_grad || ft.with_grad) <;>
      simp [Expression.cond, Expression.grad_of, Tensor.new, Tensor.grad_id, h]
  · cases h : (ct.with_grad || tt.with_grad) <;>
      simp [Expression.cond, Expression.grad_of, Tensor.new, Tensor.grad_id, h]
  · cases h : (ct.with_grad || tt.with_grad || ft.with_grad) <;>
      simp [Expression.cond, Expression.grad_of, Tensor.new, Tensor.grad_id, h]
  · cases h : (m.differentiable && (lt'.with_grad || rt.with_grad)) <;>
      simp [Expression.cmp_op, Expression.grad_of, Tensor.new, Tensor.grad_id, h]

/-- C3: a Const/Const comparison is always evaluated with the Discrete
method; every tensor-result arm honors the requested method with a fresh
identity exactly when the method is differentiable and a tensor operand
tracks gradients, and otherwise silently downgrades to the Discrete method
with no identity — in particular a Discrete-method comparison of two
gradient-tracking tensors never carries an identity. -/
theorem c3_cmp_gradient_activation (T : CmpOpT) (m : CmpMethod) (fresh : ℕ)
    (l r : ℝ) (lt' rt : Tensor) :
    Expression.cmp_op T (.Const l) (.Const r) m fresh
        = .Const (T.forward CmpMethod.Discret l r) ∧
    ((m.differentiable && rt.with_grad) = true →
      Expression.cmp_op T (.Const l) (.Tensor rt) m fresh =
        .Tensor (Tensor.new (some fresh) (T.forward_iter_fix_lhs m l rt.values)
          (Op.Cmp (.Const l) (.Tensor rt) T.op m))) ∧
    ((m.differentiable && rt.with_grad) = false →
      Expression.cmp_op T (.Const l) (.Tensor rt) m fresh =
        .Tensor (Tensor.new none
          (T.forward_iter_fix_lhs CmpMethod.Discret l rt.values)
          (Op.Cmp (.Const l) (.Tensor rt) T.op CmpMethod.Discret))) ∧
    ((m.differentiable && lt'.with_grad) = true →
      Expression.cmp_op T (.Tensor lt') (.Const r) m fresh =
        .Tensor (Tensor.new (some fresh) (T.forward_iter_fix_rhs m r lt'.values)
          (Op.Cmp (.Tensor lt') (.Const r) T.op m))) ∧
    ((m.differentiable && lt'.with_grad) = false →
      Expression.cmp_op T (.Tensor lt') (.Const r) m fresh =
        .Tensor (Tensor.new none
          (T.forward_iter_fix_rhs CmpMethod.Discret r lt'.values)
          (Op.Cmp (.Tensor lt') (.Const r) T.op CmpMethod.Discret))) ∧
    ((m.differentiable && (lt'.with_grad || rt.with_grad)) = true →
      Expression.cmp_op T (.Tensor lt') (.Tensor rt) m fresh =
        .Tensor (Tensor.new (some fresh) (T.forward_iter m lt'.values rt.values)
          (Op.Cmp (.Tensor lt') (.Tensor rt) T.op m))) ∧
    ((m.differentiable && (lt'.with_grad || rt.with_grad)) = false →
      Expression.cmp_op T (.Tensor lt') (.Tensor rt) m fresh =
        .Tensor (Tensor.new none
          (T.forward_iter CmpMethod.Discret lt'.values rt.values)
          (Op.Cmp (.Tensor lt') (.Tensor rt) T.op CmpMethod.Discret))) ∧
    (Expression.cmp_op T (.Tensor lt') (.Tensor rt) CmpMethod.Discret fresh).grad_of
        = none := by
  refine ⟨rfl, fun h => ?_, fun h => ?_, fun h => ?_, fun h => ?_, fun h => ?_,
    fun h => ?_, ?_⟩
  · simp [Expression.cmp_op, h]
  · simp [Expression.cmp_op, h]
  · simp [Expression.cmp_op, h]
  · simp [Expression.cmp_op, h]
  · simp [Expression.cmp_op, h]
  · simp [Expression.cmp_op, h]
  · rfl

/-- C8: under each of the three smoothing methods (Discrete; Linear with
positive epsilon; Sigmoid with positive k), le plus gt is exactly one and
lt plus ge is exactly one, for every pair of operands. -/
theorem c8_complementarity (a b epsilon k : ℝ) (he : 0 < epsilon) (_hk : 0 < k) :
    CmpMethodDiscret.le_forward a b + CmpMethodDiscret.gt_forward a b = 1 ∧
    CmpMethodDiscret.lt_forward a b + CmpMethodDiscret.ge_forward a b = 1 ∧
    CmpMethodLinear.le_forward epsilon a b + CmpMethodLinear.gt_forward epsilon a b
        = 1 ∧
    CmpMethodLinear.lt_forward epsilon a b + CmpMethodLinear.ge_forward epsilon a b
        = 1 ∧
    CmpMethodSigmoid.le_forward k a b + CmpMethodSigmoid.gt_forward k a b = 1 ∧
    CmpMethodSigmoid.lt_forward k a b + CmpMethodSigmoid.ge_forward k a b = 1 := by
  have hsig : CmpMethodSigmoid.le_forward k a b + CmpMethodSigmoid.le_forward k b a
      = 1 := by
    unfold CmpMethodSigmoid.le_forward
    rw [show k * (b - a) = -(k * (a - b)) by ring]
    exact sigmoid_swap_sum (k * (a - b))
  refine ⟨?_, ?_, ?_, ?_, hsig, hsig⟩
  · unfold CmpMethodDiscret.le_forward CmpMethodDiscret.gt_forward
    by_cases h : a ≤ b
    · rw [if_pos h, if_neg (not_lt.mpr h)]; norm_num
    · rw [if_neg h, if_pos (lt_of_not_le h)]; norm_num
  · unfold CmpMethodDiscret.lt_forward CmpMethodDiscret.ge_forward
    by_cases h : a < b
    · rw [if_pos h, if_neg (not_le.mpr h)]; norm_num
    · rw [if_neg h, if_pos (not_lt.mp h)]; norm_num
  · exact linear_le_swap_sum epsilon a b he
  · exact linear_le_swap_sum epsilon a b he

/-- C8 witness at a = 0, b = 0, epsilon = 1, k = 1: the linear le/gt pair
sums to one. -/
theorem c8_witness :
    CmpMethodLinear.le_forward 1 0 0 + CmpMethodLinear.gt_forward 1 0 0 = 1 :=
  (c8_complementarity 0 0 1 1 (by norm_num) (by norm_num)).2.2.1

/-- C9: under each of the three smoothing methods (Discrete; Linear with
positive epsilon; Sigmoid with positive k), ne equals 1 - eq exactly, for
every pair of operands. -/
theorem c9_ne_complement (a b epsilon k : ℝ) (_he : 0 < epsilon) (_hk : 0 < k) :
    CmpMethodDiscret.ne_forward a b = 1 - CmpMethodDiscret.eq_forward a b ∧
    CmpMethodLinear.ne_forward epsilon a b
        = 1 - CmpMethodLinear.eq_forward epsilon a b ∧
    CmpMethodSigmoid.ne_forward k a b = 1 - CmpMethodSigmoid.eq_forward k a b := by
  refine ⟨?_, ?_, rfl⟩
  · by_cases h : a = b <;>
      simp [CmpMethodDiscret.ne_forward, CmpMethodDiscret.eq_forward, h]
  · unfold CmpMethodLinear.ne_forward CmpMethodLinear.eq_forward
    by_cases h : |a - b| < epsilon
    · rw [if_pos h, if_pos h]; ring
    · rw [if_neg h, if_neg h]; ring

/-- C9 witness at a = 0, b = 0, epsilon = 1, k = 1: the linear ne is the
complement of the linear eq. -/
theorem c9_witness :
    CmpMethodLinear.ne_forward 1 0 0 = 1 - CmpMethodLinear.eq_forward 1 0 0 :=
  (c9_ne_complement 0 0 1 1 (by norm_num) (by norm_num)).2.1

/-- C10: under the Linear (epsilon positive) and Sigmoid (k positive)
methods, lt's forward and backward rules are identical to le's and gt's to
ge's; at equal operands the linear lt and le are both exactly 1/2, while
the Discrete method separates them: lt gives 0 and le gives 1. -/
theorem c10_strict_equals_nonstrict (a lhs rhs res grad acc epsilon k : ℝ)
    (he : 0 < epsilon) (_hk : 0 < k) :
    CmpMethodLinear.lt_forward epsilon a a = 1 / 2 ∧
    CmpMethodLinear.le_forward epsilon a a = 1 / 2 ∧
    CmpMethodDiscret.lt_forward a a = 0 ∧
    CmpMethodDiscret.le_forward a a = 1 ∧
    CmpMethodLinear.lt_forward epsilon lhs rhs
        = CmpMethodLinear.le_forward epsilon lhs rhs ∧
    CmpMethodLinear.gt_forward epsilon lhs rhs
        = CmpMethodLinear.ge_forward epsilon lhs rhs ∧
    CmpMethodLinear.lt_backward_lhs epsilon lhs rhs res grad acc
        = CmpMethodLinear.le_backward_lhs epsilon lhs rhs res grad acc ∧
    CmpMethodLinear.lt_backward_rhs epsilon lhs rhs res grad acc
        = CmpMethodLinear.le_backward_rhs epsilon lhs rhs res grad acc ∧
    CmpMethodLinear.gt_backward_lhs epsilon lhs rhs res grad acc
        = CmpMethodLinear.ge_backward_lhs epsilon lhs rhs res grad acc ∧
    CmpMethodLinear.gt_backward_rhs epsilon lhs rhs res grad acc
        = CmpMethodLinear.ge_backward_rhs epsilon lhs rhs res grad acc ∧
    CmpMethodSigmoid.lt_forward k lhs rhs = CmpMethodSigmoid.le_forward k lhs rhs ∧
    CmpMethodSigmoid.gt_forward k lhs rhs = CmpMethodSigmoid.ge_forward k lhs rhs ∧
    CmpMethodSigmoid.lt_backward_lhs k lhs rhs res grad acc
        = CmpMethodSigmoid.le_backward_lhs k lhs rhs res grad acc ∧
    CmpMethodSigmoid.lt_backward_rhs k lhs rhs res grad acc
        = CmpMethodSigmoid.le_backward_rhs k lhs rhs res grad acc ∧
    CmpMethodSigmoid.gt_backward_lhs k lhs rhs res grad acc
        = CmpMethodSigmoid.ge_backward_lhs k lhs rhs res grad acc ∧
    CmpMethodSigmoid.gt_backward_rhs k lhs rhs res grad acc
        = CmpMethodSigmoid.ge_backward_rhs k lhs rhs res grad acc := by
  have hhalf : CmpMethodLinear.le_forward epsilon a a = 1 / 2 := by
    unfold CmpMethodLinear.le_forward
    rw [sub_self]
    rw [if_neg (by linarith : ¬ epsilon < (0 : ℝ)),
      if_neg (by linarith : ¬ (0 : ℝ) < -epsilon)]
    norm_num
  refine ⟨hhalf, hhalf, ?_, ?_, rfl, rfl, rfl, rfl, rfl, rfl, rfl, rfl, rfl, rfl,
    rfl, rfl⟩
  · unfold CmpMethodDiscret.lt_forward
    rw [if_neg (lt_irrefl a)]
  · unfold CmpMethodDiscret.le_forward
    rw [if_pos (le_refl a)]

/-- C10 witness at a = 2, epsilon = 1, k = 1: the linear strict comparison
at equal operands is exactly 1/2. -/
theorem c10_witness : CmpMethodLinear.lt_forward 1 2 2 = 1 / 2 :=
  (c10_strict_equals_nonstrict 2 0 0 0 0 0 1 1 (by norm_num) (by norm_num)).1

end

end Gspice
